import Mathlib

/-!
# Verification of the hospitable client core

Shallow embedding of the authenticated-request execution pipeline of the
hospitable TypeScript client: the retry/backoff controller (`src/http/retry.ts`),
the token lifecycle manager (`src/auth/token-manager.ts`), and the cursor
paginator (`src/http/paginate.ts`), together with proofs of the spec's claims
about them.

Modelling conventions:
* JavaScript numbers used for delays and the jitter computation are modelled
  as rationals (`ℚ`); `Math.random()` becomes an explicit parameter in `[0, 1)`.
* Timestamps (`Date.now()`, `expiresAt`) are modelled as `Int` milliseconds;
  the `Infinity` sentinel becomes the `Expiry.never` constructor.
* Thrown JavaScript values are modelled by `JsError`: `isError` is
  `instanceof Error`, `statusCode`/`retryAfter` model the presence of a
  numeric field of that name.
* JS truthiness of optional strings (empty string is falsy) is `truthy`.
* Asynchronous operations become pure functions threading explicit state and
  taking the network responses as oracles; the count of network calls made is
  returned alongside.
-/

namespace Retry

/-- A thrown JavaScript value, as inspected by `retry.ts`:
`isError` models `instanceof Error`, `message` the `.message` field,
`statusCode` a numeric `statusCode` property when present,
`retryAfter` a numeric `retryAfter` property when present. -/
structure JsError where
  isError : Bool
  message : String
  statusCode : Option Int
  retryAfter : Option ℚ
deriving DecidableEq, Repr

/-- `const RETRYABLE_STATUS_CODES = new Set([429, 500, 502, 503, 504])` -/
def RETRYABLE_STATUS_CODES : List Int := [429, 500, 502, 503, 504]

/-- `getStatusCode(error)`: the numeric `statusCode` property, or `null`. -/
def getStatusCode (e : JsError) : Option Int := e.statusCode

/-- `extractRetryAfter(error)`: the numeric `retryAfter` property when present,
else the default `60`. -/
def extractRetryAfter (e : JsError) : ℚ :=
  match e.retryAfter with
  | some n => n
  | none => 60

/-- `jitteredDelay(base, attempt, max)` with `Math.random()` passed explicitly
as `rand`:
`exponential = Math.min(base * 2^(attempt-1), max)`;
`jitter = exponential * 0.25 * (rand * 2 - 1)`;
result `Math.max(0, exponential + jitter)`. -/
def jitteredDelay (base : ℚ) (attempt : ℕ) (maxd : ℚ) (rand : ℚ) : ℚ :=
  let exponential := min (base * 2 ^ (attempt - 1)) maxd
  let jitter := exponential * (1/4) * (rand * 2 - 1)
  max 0 (exponential + jitter)

/-- The arguments of one `onRateLimit` invocation. -/
structure RLEvent where
  retryAfter : ℚ
  endpoint : String
  attempt : ℕ
deriving DecidableEq, Repr

/-- The value finally thrown by `withRetry`: either the original error
(propagated unchanged) or a `ServerError(message, statusCode, attempts)`. -/
inductive Thrown where
  | original (e : JsError)
  | serverError (message : String) (statusCode : Int) (attempts : ℕ)
deriving DecidableEq, Repr

/-- The observable behaviour of one `withRetry` run: its result, how many
times `fn` was invoked, the successive `sleep` delays, and the `onRateLimit`
invocations (in order). -/
structure Trace (α : Type) where
  result : Except Thrown α
  calls : ℕ
  delays : List ℚ
  rlEvents : List RLEvent
deriving Repr

/-- Lines 51–58 of `retry.ts`: the delay and rate-limit-callback invocation
for one non-final failed attempt whose status `sc` is retryable.
`if (statusCode === 429 && error instanceof Error) { const retryAfter =
extractRetryAfter(error); delay = retryAfter > 0 ? retryAfter * 1000 :
jitteredDelay(...); onRateLimit?.({ retryAfter, endpoint, attempt }) } else
{ delay = jitteredDelay(...) }`. -/
def attemptDelayEvents (e : JsError) (sc : Int) (attempt : ℕ)
    (baseDelay maxDelay : ℚ) (rand : ℚ) (endpoint : String) : ℚ × List RLEvent :=
  if sc = 429 ∧ e.isError then
    let ra := extractRetryAfter e
    (if ra > 0 then ra * 1000 else jitteredDelay baseDelay attempt maxDelay rand,
     [⟨ra, endpoint, attempt⟩])
  else
    (jitteredDelay baseDelay attempt maxDelay rand, [])

/-- The attempt loop of `withRetry`, by recursion on the number of attempts
remaining (`n`); `attempt` is the 1-based attempt counter, so `attempt` is the
last allowed attempt exactly when `n = 1`. `ops k` is the outcome of the k-th
invocation of `fn`; `rand k` the `Math.random()` drawn for attempt `k`'s
jitter. The `n = 0` base case is reached only when `maxAttempts = 0`, where
the loop body never runs and `lastError` is still `undefined` (no status,
fallback message). -/
def withRetryGo {α : Type} (ops : ℕ → Except JsError α) (endpoint : String)
    (maxAttempts : ℕ) (baseDelay maxDelay : ℚ) (rand : ℕ → ℚ) :
    ℕ → ℕ → Trace α
  | 0, _ =>
      ⟨.error (.serverError (s!"Request failed after {maxAttempts} attempts") 500 maxAttempts),
       0, [], []⟩
  | n + 1, attempt =>
      match ops attempt with
      | .ok v => ⟨.ok v, 1, [], []⟩
      | .error e =>
          match getStatusCode e with
          | none => ⟨.error (.original e), 1, [], []⟩
          | some sc =>
              if sc ∉ RETRYABLE_STATUS_CODES then
                ⟨.error (.original e), 1, [], []⟩
              else if n = 0 then
                ⟨.error (.serverError
                    (if e.isError then e.message
                     else s!"Request failed after {maxAttempts} attempts")
                    sc maxAttempts), 1, [], []⟩
              else
                let de := attemptDelayEvents e sc attempt baseDelay maxDelay (rand attempt) endpoint
                let t := withRetryGo ops endpoint maxAttempts baseDelay maxDelay rand n (attempt + 1)
                ⟨t.result, t.calls + 1, de.1 :: t.delays, de.2 ++ t.rlEvents⟩

/-- `withRetry(fn, endpoint, config)`: run the attempt loop from attempt 1.
Defaults in the source: `maxAttempts = 4`, `baseDelay = 1000`,
`maxDelay = 60000`. -/
def withRetry {α : Type} (ops : ℕ → Except JsError α) (endpoint : String)
    (maxAttempts : ℕ := 4) (baseDelay : ℚ := 1000) (maxDelay : ℚ := 60000)
    (rand : ℕ → ℚ := fun _ => 1/2) : Trace α :=
  withRetryGo ops endpoint maxAttempts baseDelay maxDelay rand maxAttempts 1

end Retry

namespace TokenMgr

/-- JavaScript truthiness of an optional string: `undefined` and `""` are
falsy, every other string truthy. -/
def truthy : Option String → Bool
  | none => false
  | some s => s ≠ ""

/-- `TokenManagerConfig` from `token-manager.ts`. -/
structure TokenManagerConfig where
  token : Option String
  refreshToken : Option String
  clientId : Option String
  clientSecret : Option String
  baseURL : String
deriving DecidableEq, Repr

/-- `expiresAt`: a millisecond instant, or the `Infinity` sentinel
(`never`) set for static personal tokens. -/
inductive Expiry where
  | never
  | fin (t : Int)
deriving DecidableEq, Repr

/-- The mutable state of a `TokenManager` (the `refreshPromise` slot is
modelled separately, in the concurrency machine below). -/
structure TokenManager where
  config : TokenManagerConfig
  accessToken : Option String
  refreshToken : Option String
  expiresAt : Expiry
deriving DecidableEq, Repr

/-- The `TokenManager` constructor. `envPat` is `process.env['HOSPITABLE_PAT']`
and `now` is `Date.now()` at construction time. Field initialisers give
`accessToken = refreshToken = undefined`, `expiresAt = 0`.
Branches: `if (config.token && !config.refreshToken && !config.clientId)`
(static PAT, `expiresAt = Infinity`); `else if (config.token)`
(`expiresAt = Date.now() + 60_000`); `else` the env fallback
(`expiresAt = Infinity` when the env var is truthy). -/
def TokenManager.make (config : TokenManagerConfig) (envPat : Option String)
    (now : Int) : TokenManager :=
  if truthy config.token ∧ ¬ truthy config.refreshToken ∧ ¬ truthy config.clientId then
    ⟨config, config.token, none, .never⟩
  else if truthy config.token then
    ⟨config, config.token, config.refreshToken, .fin (now + 60000)⟩
  else if truthy envPat then
    ⟨config, envPat, none, .never⟩
  else
    ⟨config, none, none, .fin 0⟩

/-- `needsRefresh()`: `false` when `expiresAt === Infinity`, else
`Date.now() >= expiresAt - 60_000`. -/
def needsRefresh (tm : TokenManager) (now : Int) : Bool :=
  match tm.expiresAt with
  | .never => false
  | .fin t => now ≥ t - 60000

/-- Oracle for one `POST {base}/oauth/token` exchange: the response is either
non-ok (status + body text) or an `OAuthTokenResponse`
(`access_token`, optional `refresh_token`, `expires_in` seconds). -/
inductive OAuthResult where
  | failure (status : ℕ) (text : String)
  | success (access_token : String) (refresh_token : Option String) (expires_in : Int)
deriving DecidableEq, Repr

/-- Outcome of `doRefresh()`. -/
inductive RefreshResult where
  | configError (msg : String)
  | httpError (msg : String)
  | refreshed (tm : TokenManager)
deriving DecidableEq, Repr

/-- `doRefresh()`: throws the configuration error before any network call when
`!clientId || !clientSecret`; otherwise performs exactly one endpoint call
(the returned `ℕ` counts network calls). A non-ok response throws
`Token refresh failed ({status}): {text}`. A success response sets
`accessToken = data.access_token`, adopts `data.refresh_token` only when
truthy, and sets `expiresAt = Date.now() + data.expires_in * 1000`. -/
def doRefresh (tm : TokenManager) (resp : OAuthResult) (now : Int) :
    RefreshResult × ℕ :=
  if ¬ (truthy tm.config.clientId ∧ truthy tm.config.clientSecret) then
    (.configError "Cannot refresh token: clientId and clientSecret are required", 0)
  else
    match resp with
    | .failure status text =>
        (.httpError (s!"Token refresh failed ({status}): {text}"), 1)
    | .success access newRefresh expires_in =>
        (.refreshed { tm with
            accessToken := some access
            refreshToken := if truthy newRefresh then newRefresh else tm.refreshToken
            expiresAt := .fin (now + expires_in * 1000) }, 1)

/-- The `No access token available` error message thrown by `getAuthHeader`. -/
def noAccessMsg : String :=
  "No access token available. Provide token or clientId+clientSecret."

/-- One sequential `getAuthHeader()` call (no concurrent refresh pending):
when `needsRefresh()`, awaits a refresh (outcome given by the `resp` oracle);
then throws unless `this.accessToken` is truthy, else returns
`Bearer {accessToken}`. Returns (result, state after, network calls made). -/
def getAuthHeaderRun (tm : TokenManager) (now : Int) (resp : OAuthResult) :
    Except String String × TokenManager × ℕ :=
  if needsRefresh tm now then
    match doRefresh tm resp now with
    | (.configError m, k) => (.error m, tm, k)
    | (.httpError m, k) => (.error m, tm, k)
    | (.refreshed tm', k) =>
        if truthy tm'.accessToken then
          (.ok ("Bearer " ++ tm'.accessToken.getD ""), tm', k)
        else
          (.error noAccessMsg, tm', k)
  else
    if truthy tm.accessToken then
      (.ok ("Bearer " ++ tm.accessToken.getD ""), tm, 0)
    else
      (.error noAccessMsg, tm, 0)

/-- A sequence of sequential `getAuthHeader()` calls, each with its own
`Date.now()` and endpoint oracle; returns the final state and the total number
of authorization-endpoint calls made. -/
def runGetAuthHeaders : TokenManager → List (Int × OAuthResult) → TokenManager × ℕ
  | tm, [] => (tm, 0)
  | tm, (now, resp) :: rest =>
      let r := getAuthHeaderRun tm now resp
      let f := runGetAuthHeaders r.2.1 rest
      (f.1, r.2.2 + f.2)

/-- `handleUnauthorized()`: sets `expiresAt = 0`, then awaits a refresh.
Returns (outcome, state after, network calls). -/
def handleUnauthorized (tm : TokenManager) (resp : OAuthResult) (now : Int) :
    Except String Unit × TokenManager × ℕ :=
  let tm0 : TokenManager := { tm with expiresAt := .fin 0 }
  match doRefresh tm0 resp now with
  | (.configError m, k) => (.error m, tm0, k)
  | (.httpError m, k) => (.error m, tm0, k)
  | (.refreshed tm', k) => (.ok (), tm', k)

end TokenMgr

namespace Paginate

/-- A `PaginatedResponse` as consumed by `paginate`: the `data` list and
`meta.nextCursor` (`null` modelled as `none`). -/
structure Page (α : Type) where
  data : List α
  nextCursor : Option String
deriving DecidableEq, Repr

/-- The do-while loop of `paginate(fetcher, params, perPage)`: each iteration
invokes the fetcher with the current cursor (`undefined` on the first page,
modelled `none`) and `perPage`, yields every item of `page.data` in order,
sets the cursor to `page.meta.nextCursor`, and loops while that cursor is not
`null`. A rejection of the fetcher ends the traversal at that point; items
already yielded from prior pages are kept in the trace. `fuel` bounds the
number of pages the model unrolls (the generator itself is unbounded); all
theorems quantify over sufficient fuel. Returns
(items yielded in order, number of fetches, the rejection if any). -/
def paginateGo {ε α : Type} (fetch : Option String → ℕ → Except ε (Page α))
    (perPage : ℕ) : ℕ → Option String → List α × ℕ × Option ε
  | 0, _ => ([], 0, none)
  | fuel + 1, cursor =>
      match fetch cursor perPage with
      | .error e => ([], 1, some e)
      | .ok page =>
          match page.nextCursor with
          | none => (page.data, 1, none)
          | some c =>
              let r := paginateGo fetch perPage fuel (some c)
              (page.data ++ r.1, r.2.1 + 1, r.2.2)

/-- `paginate(fetcher, params, perPage = 100)`, starting with `cursor = null`
(passed to the fetcher as `undefined`). -/
def paginate {ε α : Type} (fetch : Option String → ℕ → Except ε (Page α))
    (perPage : ℕ := 100) (fuel : ℕ) : List α × ℕ × Option ε :=
  paginateGo fetch perPage fuel none

/-- `collectAll(fetcher, params, perPage = 100)`: drives `paginate` to
completion, accumulating items; a mid-traversal rejection propagates as the
whole operation's failure and the partial accumulator is discarded. -/
def collectAll {ε α : Type} (fetch : Option String → ℕ → Except ε (Page α))
    (perPage : ℕ := 100) (fuel : ℕ) : Except ε (List α) :=
  match paginate fetch perPage fuel with
  | (_, _, some e) => .error e
  | (items, _, none) => .ok items

end Paginate

namespace Concurrency

open TokenMgr

/-- Program counter of one caller of `getAuthHeader()` in the cooperative
(single-threaded, microtask-interleaved) execution model:
`start`: about to run the synchronous segment of `getAuthHeader` up to its
first suspension (the `needsRefresh` check and, inside `ensureRefreshed`,
either joining the pending `refreshPromise` or synchronously starting
`doRefresh` — which issues the endpoint call — and storing the shared
promise);
`joinWait`: suspended on another caller's in-flight `refreshPromise`;
`ownerWait`: suspended on its own `doRefresh`'s network response;
`retOk`/`retErr`: the call settled. -/
inductive PC where
  | start
  | joinWait
  | ownerWait
  | retOk (header : String)
  | retErr (msg : String)
deriving DecidableEq, Repr

/-- Shared state for two concurrent `getAuthHeader()` callers on one manager:
the credential state, the `refreshPromise` slot (`pending`), the number of
authorization-endpoint calls issued so far, the outcome of the last settled
refresh (`none` = resolved, `some m` = rejected with `m`), and both callers'
program counters. -/
structure Sys where
  tm : TokenManager
  pending : Bool
  ncalls : ℕ
  lastErr : Option String
  pc1 : PC
  pc2 : PC
deriving DecidableEq, Repr

/-- Read / write one caller's program counter. -/
def Sys.pc (s : Sys) (i : Bool) : PC := if i then s.pc2 else s.pc1

/-- Replace caller `i`'s program counter. -/
def Sys.setPc (s : Sys) (i : Bool) (p : PC) : Sys :=
  if i then { s with pc2 := p } else { s with pc1 := p }

/-- One scheduler step: caller `i` runs from its current suspension point to
its next one. Time is frozen at `now` (the calls are concurrent) and `resp`
is the endpoint oracle for the (single) refresh exchange.
Granularity note: the settlement of `doRefresh` — state updates, the
`.finally` clearing `refreshPromise`, and the owner's resumption of
`getAuthHeader` — is collapsed into the one `ownerWait` step; a synchronous
throw inside `doRefresh` (missing client credentials) is likewise collapsed
into the starting step. Waiters resume only after the shared promise has
settled (`pending = false`). -/
def step (now : Int) (resp : OAuthResult) (s : Sys) (i : Bool) : Sys :=
  match s.pc i with
  | .start =>
      if needsRefresh s.tm now then
        if s.pending then s.setPc i .joinWait
        else if ¬ (truthy s.tm.config.clientId ∧ truthy s.tm.config.clientSecret) then
          -- doRefresh throws synchronously before any network call
          s.setPc i (.retErr "Cannot refresh token: clientId and clientSecret are required")
        else
          -- doRefresh's synchronous prefix issues the fetch; the shared
          -- refreshPromise is stored; the caller suspends awaiting it
          { s.setPc i .ownerWait with pending := true, ncalls := s.ncalls + 1 }
      else
        if truthy s.tm.accessToken then
          s.setPc i (.retOk ("Bearer " ++ s.tm.accessToken.getD ""))
        else
          s.setPc i (.retErr noAccessMsg)
  | .joinWait =>
      if s.pending then s -- still suspended on the in-flight refresh
      else
        match s.lastErr with
        | some m => s.setPc i (.retErr m)
        | none =>
            if truthy s.tm.accessToken then
              s.setPc i (.retOk ("Bearer " ++ s.tm.accessToken.getD ""))
            else
              s.setPc i (.retErr noAccessMsg)
  | .ownerWait =>
      -- the network response arrives: doRefresh settles, the finally clears
      -- refreshPromise, and this caller resumes getAuthHeader
      match doRefresh s.tm resp now with
      | (.configError m, _) =>
          { s.setPc i (.retErr m) with pending := false, lastErr := some m }
      | (.httpError m, _) =>
          { s.setPc i (.retErr m) with pending := false, lastErr := some m }
      | (.refreshed tm', _) =>
          let s' : Sys := { s with tm := tm', pending := false, lastErr := none }
          if truthy tm'.accessToken then
            s'.setPc i (.retOk ("Bearer " ++ tm'.accessToken.getD ""))
          else
            s'.setPc i (.retErr noAccessMsg)
  | .retOk _ => s
  | .retErr _ => s

/-- Run a schedule (arbitrary interleaving of the two callers). -/
def run (now : Int) (resp : OAuthResult) (init : Sys) (sched : List Bool) : Sys :=
  sched.foldl (step now resp) init

/-- Initial state: both callers invoke `getAuthHeader()` concurrently on
manager `tm`; no refresh is pending. -/
def init (tm : TokenManager) : Sys := ⟨tm, false, 0, none, .start, .start⟩

end Concurrency

namespace Client

open TokenMgr

/-- Modelled from the spec: the composing client (`HospitableClient`)'s
401-triggered forced-reauthentication path — "a 401-class failure additionally
triggers the Token Lifecycle Manager's forced re-authentication before a
single extra retry at a layer above retry (the composing client)". This
wrapper is not among the source files (the `HospitableClient` in the sources
only wires `TokenManager.getAuthHeader` into `HttpClient`; its 401 path is
exercised only by `client.test.ts`). `attemptOutcome k` is the outcome of the
k-th invocation of the retry-wrapped resource request; `handleUnauthorized`
is the real one from `token-manager.ts`. Returns
(result, manager state after, resource-request invocations, refresh calls). -/
def requestWith401Retry {α : Type} (tm : TokenManager) (now : Int)
    (oauth : OAuthResult) (attemptOutcome : ℕ → Except Retry.JsError α) :
    Except Retry.JsError α × TokenManager × ℕ × ℕ :=
  match attemptOutcome 1 with
  | .ok v => (.ok v, tm, 1, 0)
  | .error e =>
      if e.statusCode = some 401 then
        match handleUnauthorized tm oauth now with
        | (.ok _, tm', k) => (attemptOutcome 2, tm', 2, k)
        | (.error m, tm', k) => (.error ⟨true, m, none, none⟩, tm', 1, k)
      else
        (.error e, tm, 1, 0)

end Client

namespace Retry

/-- Helper: a failure whose status is not classifiable as retryable
(no `statusCode`, or one outside the retryable set) propagates unchanged from
any attempt with attempts remaining: one invocation, no delay, no callback. -/
theorem withRetryGo_fatal {α : Type} (ops : ℕ → Except JsError α)
    (endpoint : String) (maxAttempts : ℕ) (baseDelay maxDelay : ℚ)
    (rand : ℕ → ℚ) (n a : ℕ) (e : JsError)
    (hfail : ops a = .error e)
    (hnr : ∀ sc, e.statusCode = some sc → sc ∉ RETRYABLE_STATUS_CODES) :
    withRetryGo ops endpoint maxAttempts baseDelay maxDelay rand (n + 1) a =
      ⟨.error (.original e), 1, [], []⟩ := by
  rw [withRetryGo, hfail]
  cases hsc : e.statusCode with
  | none => simp [getStatusCode, hsc]
  | some sc => simp [getStatusCode, hsc, hnr sc hsc]

end Retry

namespace Retry

/-- Helper: when every invocation fails with a retryable status carried by an
`Error`, the loop runs through all `n` remaining attempts and ends in the
exhausted-retry `ServerError` built from the last failure. -/
theorem withRetryGo_exhausts {α : Type} (ops : ℕ → Except JsError α)
    (endpoint : String) (maxAttempts : ℕ) (baseDelay maxDelay : ℚ)
    (rand : ℕ → ℚ) (es : ℕ → JsError) (scs : ℕ → Int)
    (hfail : ∀ k, ops k = .error (es k))
    (hsc : ∀ k, (es k).statusCode = some (scs k))
    (hretry : ∀ k, scs k ∈ RETRYABLE_STATUS_CODES)
    (hErr : ∀ k, (es k).isError = true) :
    ∀ n a, (withRetryGo ops endpoint maxAttempts baseDelay maxDelay rand (n + 1) a).calls
        = n + 1 ∧
      (withRetryGo ops endpoint maxAttempts baseDelay maxDelay rand (n + 1) a).result
        = .error (.serverError ((es (a + n)).message) (scs (a + n)) maxAttempts) := by
  intro n
  induction n with
  | zero =>
      intro a
      rw [withRetryGo, hfail a]
      simp [getStatusCode, hsc a, hretry a, hErr a]
  | succ m ih =>
      intro a
      rw [withRetryGo, hfail a]
      have h1 := (ih (a + 1)).1
      have h2 := (ih (a + 1)).2
      simp only [getStatusCode, hsc a, hretry a, not_true_eq_false, if_false,
        Nat.succ_ne_zero, if_neg]
      constructor
      · simp [h1]
      · simpa [show a + 1 + m = a + (m + 1) by omega] using h2

end Retry

namespace Retry

/-- C4: for every configured maximum attempts `n ≥ 1` and every operation that
fails on every invocation with a retryable status (carried, as in the
client's error classes, by an `Error` value), `withRetry` invokes the
operation exactly `n` times and then raises a `ServerError` whose attempt
count equals `n`, whose status code is the final failure's status, and whose
message is the last failure's message. -/
theorem c4_exhausted_retry {α : Type} (ops : ℕ → Except JsError α)
    (endpoint : String) (maxAttempts : ℕ) (baseDelay maxDelay : ℚ)
    (rand : ℕ → ℚ) (es : ℕ → JsError) (scs : ℕ → Int)
    (hmax : 1 ≤ maxAttempts)
    (hfail : ∀ k, ops k = .error (es k))
    (hsc : ∀ k, (es k).statusCode = some (scs k))
    (hretry : ∀ k, scs k ∈ RETRYABLE_STATUS_CODES)
    (hErr : ∀ k, (es k).isError = true) :
    (withRetry ops endpoint maxAttempts baseDelay maxDelay rand).calls = maxAttempts ∧
    (withRetry ops endpoint maxAttempts baseDelay maxDelay rand).result =
      .error (.serverError ((es maxAttempts).message) (scs maxAttempts) maxAttempts) := by
  obtain ⟨n, rfl⟩ : ∃ n, maxAttempts = n + 1 := ⟨maxAttempts - 1, by omega⟩
  have h := withRetryGo_exhausts ops endpoint (n + 1) baseDelay maxDelay rand
    es scs hfail hsc hretry hErr n 1
  rw [withRetry]
  simpa [show 1 + n = n + 1 by omega] using h

/-- Witness for C4 at a concrete input: a 503 `Error` on every attempt,
`maxAttempts = 4`. -/
theorem c4_exhausted_retry_witness :
    (withRetry (α := Unit)
        (fun _ => .error ⟨true, "Service Unavailable", some 503, none⟩)
        "/test" 4 100 1000 (fun _ => 1/2)).calls = 4 ∧
    (withRetry (α := Unit)
        (fun _ => .error ⟨true, "Service Unavailable", some 503, none⟩)
        "/test" 4 100 1000 (fun _ => 1/2)).result =
      .error (.serverError "Service Unavailable" 503 4) :=
  c4_exhausted_retry
    (fun _ => .error ⟨true, "Service Unavailable", some 503, none⟩)
    "/test" 4 100 1000 (fun _ => 1/2)
    (fun _ => ⟨true, "Service Unavailable", some 503, none⟩) (fun _ => 503)
    (by decide) (fun _ => rfl) (fun _ => rfl)
    (fun _ => by show (503 : Int) ∈ RETRYABLE_STATUS_CODES; decide) (fun _ => rfl)

/-- C5: for every operation whose first failure carries a non-retryable
status (any status outside {429, 500, 502, 503, 504}, including failures with
no status code at all), `withRetry` invokes the operation exactly once, waits
for no delay, and propagates the original error value unchanged. -/
theorem c5_nonretryable_propagates_once {α : Type} (ops : ℕ → Except JsError α)
    (endpoint : String) (maxAttempts : ℕ) (baseDelay maxDelay : ℚ)
    (rand : ℕ → ℚ) (e : JsError)
    (hmax : 1 ≤ maxAttempts)
    (hfail : ops 1 = .error e)
    (hnr : ∀ sc, e.statusCode = some sc → sc ∉ RETRYABLE_STATUS_CODES) :
    withRetry ops endpoint maxAttempts baseDelay maxDelay rand =
      ⟨.error (.original e), 1, [], []⟩ := by
  obtain ⟨n, rfl⟩ : ∃ n, maxAttempts = n + 1 := ⟨maxAttempts - 1, by omega⟩
  rw [withRetry]
  exact withRetryGo_fatal ops endpoint (n + 1) baseDelay maxDelay rand n 1 e hfail hnr

/-- Witness for C5 at a concrete input: a 404 on the first attempt with the
default configuration. -/
theorem c5_nonretryable_propagates_once_witness :
    withRetry (α := Unit) (fun _ => .error ⟨true, "Not found", some 404, none⟩)
        "/test" 4 1000 60000 (fun _ => 1/2) =
      ⟨.error (.original ⟨true, "Not found", some 404, none⟩), 1, [], []⟩ :=
  c5_nonretryable_propagates_once
    (fun _ => .error ⟨true, "Not found", some 404, none⟩) "/test" 4 1000 60000
    (fun _ => 1/2) ⟨true, "Not found", some 404, none⟩
    (by decide) rfl (by decide)

end Retry

namespace Retry

/-- Helper: with `rand ∈ [0, 1)` and nonnegative base/cap, the jittered delay
equals the capped exponential perturbed by at most ±25% and is nonnegative
(so the `Math.max(0, ...)` floor never truncates). -/
theorem jitteredDelay_bounds (base : ℚ) (attempt : ℕ) (maxd rand : ℚ)
    (h0 : 0 ≤ rand) (h1 : rand < 1) (hb : 0 ≤ base) (hm : 0 ≤ maxd) :
    0 ≤ jitteredDelay base attempt maxd rand ∧
    |jitteredDelay base attempt maxd rand - min (base * 2 ^ (attempt - 1)) maxd|
      ≤ min (base * 2 ^ (attempt - 1)) maxd / 4 := by
  have hE : (0 : ℚ) ≤ min (base * 2 ^ (attempt - 1)) maxd :=
    le_min (by positivity) hm
  set E : ℚ := min (base * 2 ^ (attempt - 1)) maxd with hEdef
  have hub : rand * 2 - 1 ≤ 1 := by linarith
  have hlb : -1 ≤ rand * 2 - 1 := by linarith
  have hsum : 0 ≤ E + E * (1/4) * (rand * 2 - 1) := by nlinarith
  have heq : jitteredDelay base attempt maxd rand = E + E * (1/4) * (rand * 2 - 1) := by
    rw [jitteredDelay]
    exact max_eq_right hsum
  refine ⟨by rw [heq]; exact hsum, ?_⟩
  rw [heq]
  have : E + E * (1/4) * (rand * 2 - 1) - E = E * (1/4) * (rand * 2 - 1) := by ring
  rw [this, abs_le]
  constructor <;> nlinarith

end Retry

namespace Retry

/-- C3 counterexample: a 429 failure carrying no wait hint (an `Error` with no
numeric `retryAfter` property), on attempt 1 of a default-configured run.
The claim says such an attempt gets a jittered-exponential-backoff delay
(1000 ms base, so here `jitteredDelay 1000 1 60000 (1/2) = 1000`) and that no
rate-limit callback is involved; the code instead defaults the hint to 60,
sleeps 60 × 1000 ms, and invokes the callback with
`{ retryAfter: 60, endpoint, attempt: 1 }`. -/
theorem c3_counterexample :
    withRetry (α := String)
        (fun k => if k = 1 then .error ⟨true, "Rate limited", some 429, none⟩ else .ok "ok")
        "/x" 4 1000 60000 (fun _ => 1/2) =
      ⟨.ok "ok", 2, [60000], [⟨60, "/x", 1⟩]⟩ ∧
    jitteredDelay 1000 1 60000 (1/2) = 1000 ∧
    (60000 : ℚ) ≠ 1000 ∧
    ([⟨60, "/x", 1⟩] : List RLEvent) ≠ [] := by
  refine ⟨?_, ?_, by norm_num, by simp⟩
  · norm_num [withRetry, withRetryGo, attemptDelayEvents, extractRetryAfter,
      getStatusCode, RETRYABLE_STATUS_CODES]
  · norm_num [jitteredDelay]

/-- C3 (amended): for every non-final failed attempt inside `withRetry` whose
status is retryable (the delay/callback block of lines 51–58, embedded as
`attemptDelayEvents`):
(i) if the status is 429 and the failure is an `Error` carrying a positive
wait hint of `h` seconds, the delay is `h × 1000` ms and the rate-limit
callback is invoked with the hint, the context, and the attempt number;
(ii) if the status is 429 and the failure is an `Error` carrying no numeric
hint, the hint defaults to 60 seconds: the delay is `60 × 1000` ms and the
callback is invoked with 60;
(iii) for any other retryable status — or a 429 whose failure value is not an
`Error` — the delay is jittered exponential backoff and no callback is
involved;
(iv) with `Math.random() ∈ [0, 1)` and nonnegative base/cap, the jittered
delay is `min(baseDelay × 2^(attempt-1), maxDelay)` perturbed by at most
±25% and floored at 0. -/
theorem c3_amended_delay_policy (e : JsError) (sc : Int) (attempt : ℕ)
    (baseDelay maxDelay rand : ℚ) (endpoint : String) :
    (e.isError = true → ∀ h : ℚ, e.retryAfter = some h → 0 < h → sc = 429 →
      attemptDelayEvents e sc attempt baseDelay maxDelay rand endpoint =
        (h * 1000, [⟨h, endpoint, attempt⟩])) ∧
    (e.isError = true → e.retryAfter = none → sc = 429 →
      attemptDelayEvents e sc attempt baseDelay maxDelay rand endpoint =
        (60 * 1000, [⟨60, endpoint, attempt⟩])) ∧
    (sc ≠ 429 ∨ e.isError = false →
      attemptDelayEvents e sc attempt baseDelay maxDelay rand endpoint =
        (jitteredDelay baseDelay attempt maxDelay rand, [])) ∧
    (0 ≤ rand → rand < 1 → 0 ≤ baseDelay → 0 ≤ maxDelay →
      0 ≤ jitteredDelay baseDelay attempt maxDelay rand ∧
      |jitteredDelay baseDelay attempt maxDelay rand
          - min (baseDelay * 2 ^ (attempt - 1)) maxDelay|
        ≤ min (baseDelay * 2 ^ (attempt - 1)) maxDelay / 4) := by
  refine ⟨?_, ?_, ?_, fun h0 h1 hb hm => jitteredDelay_bounds _ _ _ _ h0 h1 hb hm⟩
  · intro hErr h hra hpos hsc
    subst hsc
    simp only [attemptDelayEvents, extractRetryAfter, hra, hErr, and_self, if_true, hpos,
      if_pos]
  · intro hErr hra hsc
    subst hsc
    have h60 : (0 : ℚ) < 60 := by norm_num
    simp only [attemptDelayEvents, extractRetryAfter, hra, hErr, and_self, if_true, h60,
      if_pos]
  · intro hne
    rcases hne with hne | hne
    · simp [attemptDelayEvents, hne]
    · simp [attemptDelayEvents, hne]

/-- Witness for the amended C3: a 429 `Error` with hint 5 on attempt 1 gives
delay `5 × 1000` ms and one callback invocation with 5. -/
theorem c3_amended_delay_policy_witness :
    attemptDelayEvents ⟨true, "Rate limited", some 429, some 5⟩ 429 1 1000 60000 (1/2)
        "/listings" = (5 * 1000, [⟨5, "/listings", 1⟩]) :=
  (c3_amended_delay_policy ⟨true, "Rate limited", some 429, some 5⟩ 429 1 1000 60000 (1/2)
      "/listings").1 rfl 5 rfl (by norm_num) rfl

end Retry

namespace Paginate

/-- C8: for every page-fetching function: a paginator fed pages `[a,b]` with
next-cursor `c1` then `[c,d]` with next-cursor `null` yields exactly
`[a,b,c,d]` in that order using exactly 2 fetches; a single page `[x]` with
`null` next-cursor yields `[x]` using exactly 1 fetch; an empty first page
with `null` next-cursor yields nothing using exactly 1 fetch — the sequence
ends exactly when a page's next-cursor is `null` (the fetch counts hold for
every sufficient unrolling bound). -/
theorem c8_pagination_traversal {ε α : Type} :
    (∀ (f : Option String → ℕ → Except ε (Page α)) (a b c d : α) (c1 : String)
        (perPage : ℕ),
      f none perPage = .ok ⟨[a, b], some c1⟩ →
      f (some c1) perPage = .ok ⟨[c, d], none⟩ →
      ∀ fuel, 2 ≤ fuel → paginate f perPage fuel = ([a, b, c, d], 2, none)) ∧
    (∀ (f : Option String → ℕ → Except ε (Page α)) (x : α) (perPage : ℕ),
      f none perPage = .ok ⟨[x], none⟩ →
      ∀ fuel, 1 ≤ fuel → paginate f perPage fuel = ([x], 1, none)) ∧
    (∀ (f : Option String → ℕ → Except ε (Page α)) (perPage : ℕ),
      f none perPage = .ok ⟨[], none⟩ →
      ∀ fuel, 1 ≤ fuel → paginate f perPage fuel = ([], 1, none)) := by
  refine ⟨?_, ?_, ?_⟩
  · intro f a b c d c1 perPage h1 h2 fuel hfuel
    obtain ⟨k, rfl⟩ : ∃ k, fuel = k + 2 := ⟨fuel - 2, by omega⟩
    simp [paginate, paginateGo, h1, h2]
  · intro f x perPage h1 fuel hfuel
    obtain ⟨k, rfl⟩ : ∃ k, fuel = k + 1 := ⟨fuel - 1, by omega⟩
    simp [paginate, paginateGo, h1]
  · intro f perPage h1 fuel hfuel
    obtain ⟨k, rfl⟩ : ∃ k, fuel = k + 1 := ⟨fuel - 1, by omega⟩
    simp [paginate, paginateGo, h1]

/-- Witness for C8 at concrete inputs: the three scenarios with string pages
and `perPage = 100`, `fuel = 5`. -/
theorem c8_pagination_traversal_witness :
    paginate (ε := String)
        (fun cur _ =>
          if cur = none then .ok ⟨["a", "b"], some "c1"⟩
          else if cur = some "c1" then .ok ⟨["c", "d"], none⟩
          else .error "bad")
        100 5 = (["a", "b", "c", "d"], 2, none) ∧
    paginate (ε := String)
        (fun cur _ => if cur = none then .ok ⟨["x"], none⟩ else .error "bad")
        100 5 = (["x"], 1, none) ∧
    paginate (ε := String) (α := String)
        (fun cur _ => if cur = none then .ok ⟨[], none⟩ else .error "bad")
        100 5 = ([], 1, none) :=
  ⟨c8_pagination_traversal.1
      (fun cur _ =>
        if cur = none then .ok ⟨["a", "b"], some "c1"⟩
        else if cur = some "c1" then .ok ⟨["c", "d"], none⟩
        else .error "bad")
      "a" "b" "c" "d" "c1" 100 rfl rfl 5 (by decide),
   c8_pagination_traversal.2.1
      (fun cur _ => if cur = none then .ok ⟨["x"], none⟩ else .error "bad")
      "x" 100 rfl 5 (by decide),
   c8_pagination_traversal.2.2
      (fun cur _ => if cur = none then .ok ⟨[], none⟩ else .error "bad")
      100 rfl 5 (by decide)⟩

/-- C9: for every traversal where the fetch of the page after the first
fails: the lazy sequence yields every item of the first page before the
failure propagates at the point of the failing (second) fetch, and
`collectAll` over the same inputs rejects with that same failure without
returning any partial list. -/
theorem c9_midstream_failure {ε α : Type}
    (f : Option String → ℕ → Except ε (Page α)) (items : List α) (c1 : String)
    (e : ε) (perPage : ℕ)
    (h1 : f none perPage = .ok ⟨items, some c1⟩)
    (h2 : f (some c1) perPage = .error e) :
    ∀ fuel, 2 ≤ fuel →
      paginate f perPage fuel = (items, 2, some e) ∧
      collectAll f perPage fuel = .error e := by
  intro fuel hfuel
  obtain ⟨k, rfl⟩ : ∃ k, fuel = k + 2 := ⟨fuel - 2, by omega⟩
  constructor
  · simp [paginate, paginateGo, h1, h2]
  · simp [collectAll, paginate, paginateGo, h1, h2]

/-- Witness for C9 at a concrete input: first page `[1,2]` with cursor, then
a rejecting second fetch. -/
theorem c9_midstream_failure_witness :
    paginate (ε := String)
        (fun cur _ =>
          if cur = none then .ok ⟨[1, 2], some "c2"⟩ else .error "Network failure")
        100 5 = ([1, 2], 2, some "Network failure") ∧
    collectAll (ε := String)
        (fun cur _ =>
          if cur = none then .ok ⟨[1, 2], some "c2"⟩ else .error "Network failure")
        100 5 = .error "Network failure" :=
  c9_midstream_failure
    (fun cur _ =>
      if cur = none then .ok ⟨[1, 2], some "c2"⟩ else .error "Network failure")
    [1, 2] "c2" "Network failure" 100 rfl rfl 5 (by decide)

end Paginate

namespace TokenMgr

/-- Helper: when `expiresAt` is the `Infinity` sentinel, a `getAuthHeader()`
call never refreshes: the state is unchanged and zero endpoint calls are
made. -/
theorem getAuthHeaderRun_never (tm : TokenManager) (now : Int) (resp : OAuthResult)
    (h : tm.expiresAt = .never) :
    (getAuthHeaderRun tm now resp).2.1 = tm ∧ (getAuthHeaderRun tm now resp).2.2 = 0 := by
  have hnr : needsRefresh tm now = false := by rw [needsRefresh, h]
  rw [getAuthHeaderRun, hnr]
  by_cases hacc : truthy tm.accessToken <;> simp [hacc]

/-- Helper: across any sequence of `getAuthHeader()` calls on a manager whose
`expiresAt` is the `Infinity` sentinel, zero endpoint calls are made. -/
theorem runGetAuthHeaders_never (tm : TokenManager) (h : tm.expiresAt = .never) :
    ∀ inputs : List (Int × OAuthResult), (runGetAuthHeaders tm inputs).2 = 0 := by
  intro inputs
  induction inputs generalizing tm with
  | nil => rfl
  | cons p rest ih =>
      obtain ⟨now, resp⟩ := p
      obtain ⟨hstate, hcalls⟩ := getAuthHeaderRun_never tm now resp h
      rw [runGetAuthHeaders, hcalls, hstate]
      simpa using ih tm h

/-- C6: for every manager created from a static personal token with no
refresh material (truthy `token`, falsy `refreshToken` and `clientId`), the
constructor sets the "never expires" sentinel, and no authorization-endpoint
call is ever made across arbitrarily many `getAuthHeader()` invocations;
moreover the sentinel alone implies no refresh is ever attempted, even if
refresh material happens to exist in the state. -/
theorem c6_static_token_never_refreshes (config : TokenManagerConfig)
    (envPat : Option String) (now0 : Int)
    (htok : truthy config.token = true)
    (hrt : truthy config.refreshToken = false)
    (hcid : truthy config.clientId = false) :
    (TokenManager.make config envPat now0).expiresAt = .never ∧
    (∀ inputs : List (Int × OAuthResult),
      (runGetAuthHeaders (TokenManager.make config envPat now0) inputs).2 = 0) ∧
    (∀ (tm : TokenManager), tm.expiresAt = .never →
      ∀ (now : Int) (resp : OAuthResult), needsRefresh tm now = false ∧
        (getAuthHeaderRun tm now resp).2.2 = 0) := by
  have hmk : TokenManager.make config envPat now0 =
      ⟨config, config.token, none, .never⟩ := by
    rw [TokenManager.make]
    simp [htok, hrt, hcid]
  refine ⟨by rw [hmk], ?_, ?_⟩
  · intro inputs
    exact runGetAuthHeaders_never _ (by rw [hmk]) inputs
  · intro tm h now resp
    exact ⟨by rw [needsRefresh, h], (getAuthHeaderRun_never tm now resp h).2⟩

/-- Witness for C6 at a concrete input: a PAT-mode manager, three calls with
varying clocks and oracles. -/
theorem c6_static_token_never_refreshes_witness :
    (TokenManager.make ⟨some "my-pat", none, none, none, "b"⟩ none 0).expiresAt
      = .never ∧
    (runGetAuthHeaders (TokenManager.make ⟨some "my-pat", none, none, none, "b"⟩ none 0)
      [(0, .success "x" none 3600), (10 ^ 12, .failure 500 "boom"),
       (2 * 10 ^ 12, .success "y" (some "r") 1)]).2 = 0 := by
  have h := c6_static_token_never_refreshes ⟨some "my-pat", none, none, none, "b"⟩
    none 0 (by decide) (by decide) (by decide)
  exact ⟨h.1, h.2.1 _⟩

end TokenMgr

namespace TokenMgr

/-- C7: for every manager holding no access value and configured with no
refresh material (falsy `token`, falsy environment fallback, falsy
`clientId`), `getAuthHeader()` fails — no usable credential and nothing to
refresh — raising the descriptive error before any endpoint call; and that
error, being a plain `Error` with no `statusCode`, is not retried: the retry
controller invokes the operation exactly once, sleeps for no delay, and
propagates it unchanged. -/
theorem c7_unauthenticated_error (config : TokenManagerConfig)
    (envPat : Option String) (now0 now : Int) (resp : OAuthResult)
    (htok : truthy config.token = false)
    (henv : truthy envPat = false)
    (hcid : truthy config.clientId = false)
    (hnow : 0 ≤ now) :
    (TokenManager.make config envPat now0).accessToken = none ∧
    getAuthHeaderRun (TokenManager.make config envPat now0) now resp =
      (.error "Cannot refresh token: clientId and clientSecret are required",
       TokenManager.make config envPat now0, 0) ∧
    (∀ (maxAttempts : ℕ) (baseDelay maxDelay : ℚ) (rand : ℕ → ℚ)
        (endpoint : String), 1 ≤ maxAttempts →
      Retry.withRetry (α := String)
          (fun _ => .error ⟨true,
            "Cannot refresh token: clientId and clientSecret are required",
            none, none⟩)
          endpoint maxAttempts baseDelay maxDelay rand =
        ⟨.error (.original ⟨true,
            "Cannot refresh token: clientId and clientSecret are required",
            none, none⟩), 1, [], []⟩) := by
  have hmk : TokenManager.make config envPat now0 = ⟨config, none, none, .fin 0⟩ := by
    rw [TokenManager.make]
    simp [htok, henv]
  refine ⟨by rw [hmk], ?_, ?_⟩
  · have hnr : needsRefresh (TokenManager.make config envPat now0) now = true := by
      rw [hmk, needsRefresh]
      simp only [decide_eq_true_eq]
      omega
    have hdr : doRefresh (TokenManager.make config envPat now0) resp now =
        (.configError "Cannot refresh token: clientId and clientSecret are required", 0) := by
      rw [hmk, doRefresh.eq_def]
      simp [hcid]
    rw [getAuthHeaderRun, hnr, if_pos rfl, hdr]
  · intro maxAttempts baseDelay maxDelay rand endpoint hmax
    obtain ⟨n, rfl⟩ : ∃ n, maxAttempts = n + 1 := ⟨maxAttempts - 1, by omega⟩
    rw [Retry.withRetry]
    exact Retry.withRetryGo_fatal _ endpoint (n + 1) baseDelay maxDelay rand n 1 _
      rfl (by simp [Retry.getStatusCode])

/-- Witness for C7 at a concrete input: an empty configuration, no env
fallback, `Date.now() = 0`, with the default retry configuration. -/
theorem c7_unauthenticated_error_witness :
    getAuthHeaderRun (TokenManager.make ⟨none, none, none, none, "b"⟩ none 0) 0
        (.success "x" none 3600) =
      (.error "Cannot refresh token: clientId and clientSecret are required",
       TokenManager.make ⟨none, none, none, none, "b"⟩ none 0, 0) ∧
    Retry.withRetry (α := String)
        (fun _ => .error ⟨true,
          "Cannot refresh token: clientId and clientSecret are required",
          none, none⟩)
        "/properties" 4 1000 60000 (fun _ => 1/2) =
      ⟨.error (.original ⟨true,
          "Cannot refresh token: clientId and clientSecret are required",
          none, none⟩), 1, [], []⟩ := by
  have h := c7_unauthenticated_error ⟨none, none, none, none, "b"⟩ none 0 0
    (.success "x" none 3600) (by decide) (by decide) (by decide) (by decide)
  exact ⟨h.2.1, h.2.2 4 1000 60000 (fun _ => 1/2) "/properties" (by decide)⟩

end TokenMgr

namespace TokenMgr

/-- C10: for every manager configured with both a static token and refresh
material, the constructor presets the expiry exactly 60 seconds after
construction time while the staleness margin is also 60 seconds, so the
state is stale immediately (at construction time and ever after), and the
very first `getAuthHeader()` call performs a refresh exchange (exactly one
endpoint call) before returning a bearer value, even though a token was
supplied. -/
theorem c10_first_call_always_refreshes (config : TokenManagerConfig)
    (envPat : Option String) (now0 : Int)
    (htok : truthy config.token = true)
    (hrt : truthy config.refreshToken = true) :
    (TokenManager.make config envPat now0).expiresAt = .fin (now0 + 60000) ∧
    (∀ now : Int, now0 ≤ now →
      needsRefresh (TokenManager.make config envPat now0) now = true) ∧
    (∀ (now : Int) (a : String) (r : Option String) (ei : Int),
      now0 ≤ now →
      truthy config.clientId = true → truthy config.clientSecret = true →
      a ≠ "" →
      getAuthHeaderRun (TokenManager.make config envPat now0) now (.success a r ei) =
        (.ok ("Bearer " ++ a),
         ⟨config, some a,
          if truthy r then r else config.refreshToken,
          .fin (now + ei * 1000)⟩, 1)) := by
  have hmk : TokenManager.make config envPat now0 =
      ⟨config, config.token, config.refreshToken, .fin (now0 + 60000)⟩ := by
    rw [TokenManager.make]
    simp [htok, hrt]
  have hstale : ∀ now : Int, now0 ≤ now →
      needsRefresh (TokenManager.make config envPat now0) now = true := by
    intro now hnow
    rw [hmk, needsRefresh]
    simp only [decide_eq_true_eq]
    omega
  refine ⟨by rw [hmk], hstale, ?_⟩
  intro now a r ei hnow hcid hcs ha
  have hdr : doRefresh (TokenManager.make config envPat now0) (.success a r ei) now =
      (.refreshed ⟨config, some a,
        if truthy r then r else config.refreshToken, .fin (now + ei * 1000)⟩, 1) := by
    rw [hmk, doRefresh.eq_def]
    simp [hcid, hcs]
  rw [getAuthHeaderRun, hstale now hnow, if_pos rfl, hdr]
  simp [truthy, ha]

/-- Witness for C10 at a concrete input: token + refresh token + client
credentials, constructed at time 0, first call at time 0. -/
theorem c10_first_call_always_refreshes_witness :
    needsRefresh
      (TokenManager.make ⟨some "old-token", some "old-refresh", some "cid", some "cs", "b"⟩
        none 0) 0 = true ∧
    getAuthHeaderRun
      (TokenManager.make ⟨some "old-token", some "old-refresh", some "cid", some "cs", "b"⟩
        none 0) 0 (.success "new-access-token" none 3600) =
      (.ok "Bearer new-access-token",
       ⟨⟨some "old-token", some "old-refresh", some "cid", some "cs", "b"⟩,
        some "new-access-token", some "old-refresh", .fin 3600000⟩, 1) := by
  have h := c10_first_call_always_refreshes
    ⟨some "old-token", some "old-refresh", some "cid", some "cs", "b"⟩ none 0
    (by decide) (by decide)
  refine ⟨h.2.1 0 (by decide), ?_⟩
  have h3 := h.2.2 0 "new-access-token" none 3600 (by decide) (by decide) (by decide)
    (by decide)
  simpa [truthy] using h3

end TokenMgr

namespace Client

open TokenMgr

/-- C2: for every resource request that fails with a 401-class response, the
composing client triggers the token manager's forced re-authentication
(`handleUnauthorized`: expiry reset, one refresh exchange) and then performs
exactly one extra retry of the request; this happens at a layer above the
retry controller: 401 is not in the retryable set, so `withRetry` itself
invokes a 401-failing operation exactly once and propagates it. -/
theorem c2_forced_reauth_single_retry {α : Type} (tm : TokenManager) (now : Int)
    (a : String) (r : Option String) (ei : Int)
    (attemptOutcome : ℕ → Except Retry.JsError α) (e : Retry.JsError)
    (hfirst : attemptOutcome 1 = .error e)
    (h401 : e.statusCode = some 401)
    (hcid : truthy tm.config.clientId = true)
    (hcs : truthy tm.config.clientSecret = true) :
    requestWith401Retry tm now (.success a r ei) attemptOutcome =
      (attemptOutcome 2,
       ⟨tm.config, some a,
        if truthy r then r else tm.refreshToken, .fin (now + ei * 1000)⟩, 2, 1) ∧
    (handleUnauthorized tm (.success a r ei) now).2.2 = 1 ∧
    (401 : Int) ∉ Retry.RETRYABLE_STATUS_CODES ∧
    (∀ (endpoint : String) (maxAttempts : ℕ) (baseDelay maxDelay : ℚ)
        (rand : ℕ → ℚ) (ops : ℕ → Except Retry.JsError α), 1 ≤ maxAttempts →
      ops 1 = .error e →
      Retry.withRetry ops endpoint maxAttempts baseDelay maxDelay rand =
        ⟨.error (.original e), 1, [], []⟩) := by
  have hdr : doRefresh { tm with expiresAt := .fin 0 } (.success a r ei) now =
      (.refreshed ⟨tm.config, some a,
        if truthy r then r else tm.refreshToken, .fin (now + ei * 1000)⟩, 1) := by
    rw [doRefresh.eq_def]
    simp [hcid, hcs]
  have hhu : handleUnauthorized tm (.success a r ei) now =
      (.ok (), ⟨tm.config, some a,
        if truthy r then r else tm.refreshToken, .fin (now + ei * 1000)⟩, 1) := by
    rw [handleUnauthorized, hdr]
  refine ⟨?_, by rw [hhu], by decide, ?_⟩
  · rw [requestWith401Retry, hfirst]
    simp [h401, hhu]
  · intro endpoint maxAttempts baseDelay maxDelay rand ops hmax hops
    obtain ⟨n, rfl⟩ : ∃ n, maxAttempts = n + 1 := ⟨maxAttempts - 1, by omega⟩
    rw [Retry.withRetry]
    refine Retry.withRetryGo_fatal ops endpoint (n + 1) baseDelay maxDelay rand n 1 e
      hops ?_
    intro sc hsc
    rw [h401] at hsc
    cases hsc
    decide

/-- Witness for C2 at a concrete input: the scenario of the client test — a
manager holding a stale token plus refresh material, a first request failing
401, a successful refresh, and a second request succeeding. -/
theorem c2_forced_reauth_single_retry_witness :
    requestWith401Retry
        (TokenManager.make ⟨some "old-token", some "refresh-token", some "cid", some "cs", "b"⟩
          none 0) 0 (.success "new-token" none 3600)
        (fun k => if k = 1 then .error ⟨true, "Unauthorized", some 401, none⟩
                  else .ok "data") =
      (.ok "data",
       ⟨⟨some "old-token", some "refresh-token", some "cid", some "cs", "b"⟩,
        some "new-token", some "refresh-token", .fin 3600000⟩, 2, 1) := by
  have h := c2_forced_reauth_single_retry
    (TokenManager.make ⟨some "old-token", some "refresh-token", some "cid", some "cs", "b"⟩
      none 0) 0 "new-token" none 3600
    (fun k => if k = 1 then .error ⟨true, "Unauthorized", some 401, none⟩
              else .ok "data")
    ⟨true, "Unauthorized", some 401, none⟩ rfl rfl (by decide) (by decide)
  simpa [TokenManager.make, truthy] using h.1

end Client

namespace Concurrency

open TokenMgr

/-- The manager state after the (single) successful refresh exchange with
response `access_token = a`, `refresh_token = r`, `expires_in = ei`. -/
def refreshedTM (tm0 : TokenManager) (now : Int) (a : String) (r : Option String)
    (ei : Int) : TokenManager :=
  ⟨tm0.config, some a, if truthy r then r else tm0.refreshToken,
   .fin (now + ei * 1000)⟩

/-- Inductive invariant of the two-caller machine started on a stale manager
`tm0` with a successful refresh oracle: either nobody has run yet, or exactly
one refresh is in flight (one owner, the other caller not yet finished), or
the refresh has settled (one endpoint call total, every finished caller got
the same new bearer value). -/
def Inv (tm0 : TokenManager) (now : Int) (a : String) (r : Option String)
    (ei : Int) (s : Sys) : Prop :=
  s = init tm0
  ∨ (s.tm = tm0 ∧ s.pending = true ∧ s.ncalls = 1 ∧ s.lastErr = none ∧
      ((s.pc1 = .ownerWait ∧ (s.pc2 = .start ∨ s.pc2 = .joinWait)) ∨
       (s.pc2 = .ownerWait ∧ (s.pc1 = .start ∨ s.pc1 = .joinWait))))
  ∨ (s.tm = refreshedTM tm0 now a r ei ∧ s.pending = false ∧ s.ncalls = 1 ∧
      s.lastErr = none ∧
      (s.pc1 = .start ∨ s.pc1 = .joinWait ∨ s.pc1 = .retOk ("Bearer " ++ a)) ∧
      (s.pc2 = .start ∨ s.pc2 = .joinWait ∨ s.pc2 = .retOk ("Bearer " ++ a)))

/-- Helper: each scheduler step preserves the invariant. -/
theorem step_preserves_Inv (tm0 : TokenManager) (now : Int) (a : String)
    (r : Option String) (ei : Int)
    (H1 : needsRefresh tm0 now = true)
    (H2 : truthy tm0.config.clientId = true)
    (H3 : truthy tm0.config.clientSecret = true)
    (H4 : a ≠ "") (H5 : 60000 < ei * 1000)
    (s : Sys) (i : Bool) (hs : Inv tm0 now a r ei s) :
    Inv tm0 now a r ei (step now (.success a r ei) s i) := by
  have hdr : doRefresh tm0 (.success a r ei) now =
      (.refreshed (refreshedTM tm0 now a r ei), 1) := by
    rw [doRefresh.eq_def]
    simp [H2, H3, refreshedTM]
  have hfresh : needsRefresh (refreshedTM tm0 now a r ei) now = false := by
    rw [refreshedTM, needsRefresh]
    simp only [decide_eq_false_iff_not]
    omega
  have hacc : truthy (refreshedTM tm0 now a r ei).accessToken = true := by
    simp [refreshedTM, truthy, H4]
  have hgetD : (refreshedTM tm0 now a r ei).accessToken.getD "" = a := by
    simp [refreshedTM]
  have hcfg : truthy (refreshedTM tm0 now a r ei).config.clientId = true ∧
      truthy (refreshedTM tm0 now a r ei).config.clientSecret = true := by
    simp [refreshedTM, H2, H3]
  obtain ⟨tm, pending, ncalls, lastErr, pc1, pc2⟩ := s
  rcases hs with heq | ⟨htm, hpend, hn, herr, hpcs⟩ | ⟨htm, hpend, hn, herr, hpc1, hpc2⟩
  · -- phase A: nobody has run; the stepping caller becomes the owner
    rw [init] at heq
    cases heq
    cases i <;> simp [Inv, step, init, Sys.pc, Sys.setPc, H1, H2, H3]
  · -- phase B: one refresh in flight
    simp only at htm hpend hn herr
    subst htm hpend hn herr
    rcases hpcs with ⟨hown, hoth⟩ | ⟨hown, hoth⟩ <;>
      simp only at hown <;> subst hown <;>
      rcases hoth with h2 | h2 <;> simp only at h2 <;> subst h2 <;>
      cases i <;>
      simp [Inv, step, init, Sys.pc, Sys.setPc, H1, H2, H3, hdr, hacc, hgetD]
  · -- phase C: the refresh has settled
    simp only at htm hpend hn herr
    subst htm hpend hn herr
    rcases hpc1 with h1 | h1 | h1 <;> simp only at h1 <;> subst h1 <;>
      rcases hpc2 with h2 | h2 | h2 <;> simp only at h2 <;> subst h2 <;>
      cases i <;>
      simp [Inv, step, init, Sys.pc, Sys.setPc, hfresh, hacc, hgetD, hcfg.1, hcfg.2]

end Concurrency

namespace Concurrency

open TokenMgr

/-- Helper: the invariant holds after running any schedule from the initial
two-caller state. -/
theorem run_Inv (tm0 : TokenManager) (now : Int) (a : String) (r : Option String)
    (ei : Int)
    (H1 : needsRefresh tm0 now = true)
    (H2 : truthy tm0.config.clientId = true)
    (H3 : truthy tm0.config.clientSecret = true)
    (H4 : a ≠ "") (H5 : 60000 < ei * 1000)
    (sched : List Bool) :
    Inv tm0 now a r ei (run now (.success a r ei) (init tm0) sched) := by
  suffices h : ∀ (s : Sys), Inv tm0 now a r ei s →
      Inv tm0 now a r ei (run now (.success a r ei) s sched) from
    h (init tm0) (Or.inl rfl)
  induction sched with
  | nil => intro s hs; exact hs
  | cons b bs ih =>
      intro s hs
      exact ih _ (step_preserves_Inv tm0 now a r ei H1 H2 H3 H4 H5 s b hs)

/-- C1: for every manager in a stale state (with client credentials
configured and a refresh oracle returning a nonempty token valid beyond the
60-second staleness margin), under every interleaving of two concurrent
`getAuthHeader()` callers: at most one authorization-endpoint refresh call is
ever issued (so at most one refresh exchange is ever in flight); when both
callers have resolved they triggered exactly one refresh call and both
resolved to the same new access value `Bearer {access_token}`; and no caller
resolves with an error. -/
theorem c1_concurrent_refresh_dedup (tm0 : TokenManager) (now : Int) (a : String)
    (r : Option String) (ei : Int)
    (H1 : needsRefresh tm0 now = true)
    (H2 : truthy tm0.config.clientId = true)
    (H3 : truthy tm0.config.clientSecret = true)
    (H4 : a ≠ "") (H5 : 60000 < ei * 1000)
    (sched : List Bool) :
    (run now (.success a r ei) (init tm0) sched).ncalls ≤ 1 ∧
    (∀ v1 v2 : String,
      (run now (.success a r ei) (init tm0) sched).pc1 = .retOk v1 →
      (run now (.success a r ei) (init tm0) sched).pc2 = .retOk v2 →
      (run now (.success a r ei) (init tm0) sched).ncalls = 1 ∧
      v1 = "Bearer " ++ a ∧ v2 = "Bearer " ++ a) ∧
    (∀ m : String,
      (run now (.success a r ei) (init tm0) sched).pc1 ≠ .retErr m ∧
      (run now (.success a r ei) (init tm0) sched).pc2 ≠ .retErr m) := by
  have hInv := run_Inv tm0 now a r ei H1 H2 H3 H4 H5 sched
  rcases hInv with heq | ⟨_, _, hn, _, hpcs⟩ | ⟨_, _, hn, _, hpc1, hpc2⟩
  · rw [heq, init]
    refine ⟨by simp, ?_, by simp⟩
    intro v1 v2 h1 h2
    simp at h1
  · refine ⟨by omega, ?_, ?_⟩
    · intro v1 v2 h1 h2
      rcases hpcs with ⟨hown, _⟩ | ⟨hown, _⟩
      · rw [hown] at h1; simp at h1
      · rw [hown] at h2; simp at h2
    · intro m
      constructor
      · rcases hpcs with ⟨hown, _⟩ | ⟨hown, hoth⟩
        · rw [hown]; simp
        · rcases hoth with h | h <;> rw [h] <;> simp
      · rcases hpcs with ⟨hown, hoth⟩ | ⟨hown, _⟩
        · rcases hoth with h | h <;> rw [h] <;> simp
        · rw [hown]; simp
  · refine ⟨by omega, ?_, ?_⟩
    · intro v1 v2 h1 h2
      refine ⟨hn, ?_, ?_⟩
      · rcases hpc1 with h | h | h
        · rw [h] at h1; simp at h1
        · rw [h] at h1; simp at h1
        · rw [h] at h1
          simp only [PC.retOk.injEq] at h1
          exact h1.symm
      · rcases hpc2 with h | h | h
        · rw [h] at h2; simp at h2
        · rw [h] at h2; simp at h2
        · rw [h] at h2
          simp only [PC.retOk.injEq] at h2
          exact h2.symm
    · intro m
      constructor
      · rcases hpc1 with h | h | h <;> rw [h] <;> simp
      · rcases hpc2 with h | h | h <;> rw [h] <;> simp

end Concurrency

namespace Concurrency

open TokenMgr

/-- Witness for C1 at a concrete input: a client-credentials manager stale at
time 0, the refresh oracle of the deduplication test, and the strictly
alternating two-caller schedule. -/
theorem c1_concurrent_refresh_dedup_witness :
    (run 0 (.success "new-access-token" none 3600)
        (init (TokenManager.make ⟨none, none, some "cid", some "cs", "b"⟩ none 0))
        [false, true, false, true]).ncalls ≤ 1 ∧
    (∀ v1 v2 : String,
      (run 0 (.success "new-access-token" none 3600)
          (init (TokenManager.make ⟨none, none, some "cid", some "cs", "b"⟩ none 0))
          [false, true, false, true]).pc1 = .retOk v1 →
      (run 0 (.success "new-access-token" none 3600)
          (init (TokenManager.make ⟨none, none, some "cid", some "cs", "b"⟩ none 0))
          [false, true, false, true]).pc2 = .retOk v2 →
      (run 0 (.success "new-access-token" none 3600)
          (init (TokenManager.make ⟨none, none, some "cid", some "cs", "b"⟩ none 0))
          [false, true, false, true]).ncalls = 1 ∧
      v1 = "Bearer " ++ "new-access-token" ∧ v2 = "Bearer " ++ "new-access-token") ∧
    (∀ m : String,
      (run 0 (.success "new-access-token" none 3600)
          (init (TokenManager.make ⟨none, none, some "cid", some "cs", "b"⟩ none 0))
          [false, true, false, true]).pc1 ≠ .retErr m ∧
      (run 0 (.success "new-access-token" none 3600)
          (init (TokenManager.make ⟨none, none, some "cid", some "cs", "b"⟩ none 0))
          [false, true, false, true]).pc2 ≠ .retErr m) :=
  c1_concurrent_refresh_dedup
    (TokenManager.make ⟨none, none, some "cid", some "cs", "b"⟩ none 0)
    0 "new-access-token" none 3600
    (by decide) (by decide) (by decide) (by decide) (by decide)
    [false, true, false, true]

end Concurrency
